import Mathlib

/-!
Verification development for the emile-Kosmos agent core.

Shallow embedding of the decision-making core of the Kosmos agent:
the per-tick teacher/student arbitration (kosmos/agent/core.py), the
competence-gated trust schedule, the surplus-tension rupture instrument
(kosmos/agent/surplus_tension.py), the two TD(lambda) learners
(emile_mini/goal_v2.py and emile_mini/goal_mapper.py), the REINFORCE
action policy (kosmos/agent/action_policy.py) and the demonstration
buffer (kosmos/agent/demo_buffer.py).

Python floats are modelled as rationals where every operation involved is
exact field arithmetic, and as reals where the code uses transcendental
functions (tanh, exp, sqrt).  Python dicts keyed by state tuples are
modelled as association lists with first-match lookup.
-/

/-! ### Association-list model of Python dict / defaultdict(np.zeros) -/

/-- Lookup in a dict mapping keys to fixed-length value vectors.
A missing key yields the defaultdict default, a zero vector. -/
def lookupVec [DecidableEq κ] (nActions : ℕ) : List (κ × List ℚ) → κ → List ℚ
  | [], _ => List.replicate nActions 0
  | p :: rest, k => if p.1 = k then p.2 else lookupVec nActions rest k

/-- Write a whole value vector for a key (dict item assignment):
replaces the first binding of the key, or appends a fresh binding. -/
def setVec [DecidableEq κ] : List (κ × List ℚ) → κ → List ℚ → List (κ × List ℚ)
  | [], k, v => [(k, v)]
  | p :: rest, k, v => if p.1 = k then (k, v) :: rest else p :: setVec rest k v

/-- Read one component of a key's value vector (0 when out of range). -/
def getEntry [DecidableEq κ] (nActions : ℕ) (m : List (κ × List ℚ)) (k : κ)
    (a : ℕ) : ℚ :=
  (lookupVec nActions m k).getD a 0

/-- np.max over a value vector (0 for the empty vector, which never occurs). -/
def vecMax : List ℚ → ℚ
  | [] => 0
  | x :: xs => xs.foldl max x

/-- np.max(np.abs(v)) over a value vector. -/
def maxAbs (l : List ℚ) : ℚ := (l.map (fun x => |x|)).foldl max 0

/-! ### Consciousness-zone classification and per-tick arbitration
(KosmosAgent.tick, kosmos/agent/core.py lines 718-814) -/

inductive Zone
  | crisis
  | struggling
  | transcendent
  | healthy
  deriving DecidableEq, Repr

/-- Zone classification from vitals and entropy (core.py lines 743-750). -/
def classifyZone (energy entropy : ℚ) : Zone :=
  if energy < 1/4 then Zone.crisis
  else if energy < 2/5 then Zone.struggling
  else if energy > 7/10 ∧ entropy < 2/5 then Zone.transcendent
  else Zone.healthy

/-- A completed asynchronous reasoner response: either a multi-step plan
with a goal label, or a single action (core.py lines 791-807). -/
inductive LLMResult (α : Type)
  | plan (steps : List α) (goal : String)
  | single (action : α)
  deriving DecidableEq

inductive DecisionSource
  | survivalReflex
  | learned
  | teacherPlan
  | teacherLLM
  | teacherHeuristic
  deriving DecidableEq, Repr

structure DecideOutcome (α : Type) where
  source : DecisionSource
  decision : α
  plan : List α
  pending : Option (LLMResult α)
  usedLearned : Bool
  deriving DecidableEq

/-- Consumption of a pending asynchronous reasoner result on the teacher
path (core.py lines 787-814): a fresh result (requested at most 3 ticks
ago) is adopted as a plan or single action; a stale one is discarded and
the heuristic fallback used.  The pending slot is cleared in either case. -/
def consumePending {α : Type} (plan1 : List α)
    (pending : Option (LLMResult α)) (pendingTick totalTicks : ℤ)
    (heuristicDecision : α) : DecideOutcome α :=
  match pending with
  | some res =>
    if totalTicks - pendingTick ≤ 3 then
      match res with
      | LLMResult.plan steps _ =>
        match steps with
        | d :: rest =>
          { source := DecisionSource.teacherPlan, decision := d,
            plan := rest, pending := none, usedLearned := false }
        | [] =>
          { source := DecisionSource.teacherHeuristic,
            decision := heuristicDecision, plan := [],
            pending := none, usedLearned := false }
      | LLMResult.single a =>
        { source := DecisionSource.teacherLLM, decision := a,
          plan := plan1, pending := none, usedLearned := false }
    else
      { source := DecisionSource.teacherHeuristic,
        decision := heuristicDecision, plan := plan1,
        pending := none, usedLearned := false }
  | none =>
    { source := DecisionSource.teacherHeuristic,
      decision := heuristicDecision, plan := plan1,
      pending := none, usedLearned := false }

/-- The per-tick decision-source selection of KosmosAgent.tick
(core.py lines 718-814), from rupture side-effects through the choice of
the executed decision.  Decisions themselves are abstract values of type
α; heuristicDecision and policyDecision are the values the heuristic
and the learned policy would produce this tick.  The student draw is the
uniform sample np.random.random() compared against the teacher
probability. -/
def decideStep {α : Type} (energy entropy : ℚ) (shouldRupture : Bool)
    (hasPolicy : Bool) (draw teacherProb : ℚ)
    (shouldInterrupt usePlanning : Bool) (plan : List α)
    (pending : Option (LLMResult α)) (pendingTick totalTicks : ℤ)
    (heuristicDecision policyDecision : α) : DecideOutcome α :=
  -- rupture side-effects (lines 718-734): the current plan is cleared
  let plan0 := if shouldRupture then [] else plan
  let zone := classifyZone energy entropy
  if zone = Zone.crisis ∧ ¬shouldRupture then
    { source := DecisionSource.survivalReflex, decision := heuristicDecision,
      plan := [], pending := pending, usedLearned := false }
  else if hasPolicy ∧ draw > teacherProb then
    { source := DecisionSource.learned, decision := policyDecision,
      plan := plan0, pending := pending, usedLearned := true }
  else
    let plan1 := if shouldInterrupt && !plan0.isEmpty then [] else plan0
    if usePlanning then
      match plan1 with
      | d :: rest =>
        { source := DecisionSource.teacherPlan, decision := d,
          plan := rest, pending := pending, usedLearned := false }
      | [] => consumePending [] pending pendingTick totalTicks heuristicDecision
    else
      consumePending plan1 pending pendingTick totalTicks heuristicDecision

/-! ### Competence-gated trust-probability update
(KosmosAgent.tick, core.py lines 934-969; QSEConfig, emile_mini/config.py) -/

def POLICY_TEACHER_DECAY : ℚ := 998/1000

def POLICY_TEACHER_MIN : ℚ := 1/10

/-- POLICY_TEACHER_WARMUP is absent from QSEConfig, so getattr yields 2000. -/
def teacherWarmup : ℕ := 2000

/-- Per-tick observations that drive the trust update: the student sample
counter and the reward / death-rate EMAs maintained elsewhere in tick. -/
structure TrustObs where
  learnedSamples : ℕ
  learnedRewardEma : ℚ
  heuristicRewardEma : ℚ
  deathRateEma : ℚ
  deriving DecidableEq

structure TrustState where
  teacherProb : ℚ
  baselineDeathRate : ℚ
  baselineFrozen : Bool
  deriving DecidableEq

/-- Agent construction values (core.py lines 132, 197-198). -/
def trustStart : TrustState := { teacherProb := 1, baselineDeathRate := 30, baselineFrozen := false }

/-- One tick of the competence-gated teacher-probability update
(core.py lines 940-969). -/
def trustStep (s : TrustState) (o : TrustObs) : TrustState :=
  if o.learnedSamples < teacherWarmup then
    { s with
      baselineDeathRate :=
        if o.deathRateEma < s.baselineDeathRate then o.deathRateEma
        else s.baselineDeathRate,
      teacherProb := max POLICY_TEACHER_MIN (s.teacherProb * (9999/10000)) }
  else
    let rewardCompetent := o.learnedRewardEma ≥ (9/10) * o.heuristicRewardEma
    let survivalCompetent := o.deathRateEma ≤ (12/10) * s.baselineDeathRate
    let minSamplesForEval := teacherWarmup + 500
    if minSamplesForEval ≤ o.learnedSamples ∧ rewardCompetent ∧ survivalCompetent then
      { s with
          baselineFrozen := true,
          teacherProb := max POLICY_TEACHER_MIN (s.teacherProb * POLICY_TEACHER_DECAY) }
    else if minSamplesForEval ≤ o.learnedSamples ∧ ¬survivalCompetent then
      { s with
          baselineFrozen := true,
          teacherProb := min (85/100) (s.teacherProb * (10005/10000)) }
    else
      { s with baselineFrozen := true }

/-! ### Rupture check and death-sensitive threshold multiplier
(SurplusTensionModule, kosmos/agent/surplus_tension.py lines 341-398) -/

def RUPTURE_COOLDOWN : ℤ := 50

structure RuptureState where
  cooldown : ℤ
  rupturesTriggered : ℕ
  deriving DecidableEq

/-- SurplusTensionModule._check_rupture (lines 374-398).  sigmaEma is the
smoothed curvature; dynThreshold is the value _compute_dynamic_threshold
returns for the current histories (quantified arbitrarily by the
theorems, which makes them independent of the curvature statistics). -/
def checkRupture (s : RuptureState) (sigmaEma dynThreshold : ℚ) :
    Bool × RuptureState :=
  if s.cooldown > 0 then
    (false, { s with cooldown := s.cooldown - 1 })
  else if sigmaEma > dynThreshold then
    (true, { cooldown := RUPTURE_COOLDOWN,
             rupturesTriggered := s.rupturesTriggered + 1 })
  else
    (false, s)

/-- Iterate _check_rupture over a sequence of per-step
(sigmaEma, dynThreshold) inputs, collecting the returned flags. -/
def runChecks (s : RuptureState) : List (ℚ × ℚ) → List Bool × RuptureState
  | [] => ([], s)
  | p :: rest =>
    let r := checkRupture s p.1 p.2
    let rr := runChecks r.2 rest
    (r.1 :: rr.1, rr.2)

/-- Count of deaths within the recent death window
(surplus_tension.py lines 352-358). -/
def recentDeathCount (deathTicks : List ℤ) (currentTick : ℤ) : ℕ :=
  (deathTicks.filter (fun t => currentTick - t < 200)).length

/-- Death-sensitive threshold multiplier as a function of the recent death
count (surplus_tension.py lines 350-364): base 2.0, minus 0.75 per recent
death, floored at 0.5. -/
def kEffectiveOfDeaths (recentDeaths : ℕ) : ℚ :=
  max (1/2) (2 - (3/4) * recentDeaths)

/-- k_effective as computed inside _compute_dynamic_threshold. -/
def kEffective (deathTicks : List ℤ) (currentTick : ℤ) : ℚ :=
  kEffectiveOfDeaths (recentDeathCount deathTicks currentTick)

/-! ### GoalModuleV2 TD(lambda) update (emile_mini/goal_v2.py lines 138-210)

State keys are abstract (the discretization of (context, energy, recent
reward) is deterministic, so currentState / nextState stand for its
results); value vectors have length 5 (the five strategies). -/

def v2Alpha : ℚ := 1/10

def v2Gamma : ℚ := 4/5

def v2Lambda : ℚ := 7/10

/-- The negligible-magnitude trace threshold (1e-6 in both learners). -/
def traceThreshold : ℚ := 1/1000000

/-- Trace decay applied per component by GoalModuleV2.update (line 197),
guarded by the threshold check of line 191: components at or below the
threshold are left untouched (and in particular are never removed). -/
def v2Decay (e : ℚ) : ℚ :=
  if e > traceThreshold then e * (v2Gamma * v2Lambda) else e

/-- Q-value increment applied per component by GoalModuleV2.update
(lines 191-194), guarded by the same threshold check. -/
def v2QBump (adaptiveAlpha tdError e qi : ℚ) : ℚ :=
  if e > traceThreshold then qi + adaptiveAlpha * tdError * e else qi

/-- The per-component sweep of GoalModuleV2.update (lines 189-197):
for every key currently in the eligibility mapping, each component with
trace above the threshold receives the scaled TD error in Q and is then
decayed; components at or below the threshold are left untouched.
Returns the new Q mapping and the new eligibility mapping. -/
def v2Sweep [DecidableEq κ] (adaptiveAlpha tdError : ℚ)
    (Q : List (κ × List ℚ)) :
    List (κ × List ℚ) → List (κ × List ℚ) × List (κ × List ℚ)
  | [] => (Q, [])
  | (k, v) :: rest =>
    let qv := lookupVec 5 Q k
    let qv2 := List.zipWith (v2QBump adaptiveAlpha tdError) v qv
    let v2 := v.map v2Decay
    let Q1 := if v.any (fun e => decide (e > traceThreshold)) then setVec Q k qv2 else Q
    let r := v2Sweep adaptiveAlpha tdError Q1 rest
    (r.1, (k, v2) :: r.2)

structure V2UpdateResult (κ : Type) where
  Q : List (κ × List ℚ)
  eligibility : List (κ × List ℚ)
  tdError : ℚ
  deriving DecidableEq

/-- GoalModuleV2.update (lines 157-197), after the None-guard, with the
discretization of the next state abstracted into the nextState key and
the visit counter for the current pair passed in as visits. -/
def v2Update [DecidableEq κ] (Q elig : List (κ × List ℚ)) (cs : κ) (ca : ℕ)
    (nextState : κ) (reward : ℚ) (done : Bool) (visits : ℕ) :
    V2UpdateResult κ :=
  let currentQ := getEntry 5 Q cs ca
  let tdTarget := if done then reward else reward + v2Gamma * vecMax (lookupVec 5 Q nextState)
  let tdError := tdTarget - currentQ
  let adaptiveAlpha := v2Alpha / (1 + (1/100) * (visits : ℚ))
  -- self.eligibility[current_state][current_action] += 1.0
  let v := lookupVec 5 elig cs
  let elig1 := setVec elig cs (v.set ca (v.getD ca 0 + 1))
  let r := v2Sweep adaptiveAlpha tdError Q elig1
  { Q := r.1, eligibility := r.2, tdError := tdError }

/-! ### GoalMapper TD(lambda) update (emile_mini/goal_mapper.py lines 139-170)

Keys abstract the 5-tuple discretized states; value vectors have length 7
(the seven embodied goals). -/

def mapperAlpha : ℚ := 3/20

def mapperGamma : ℚ := 4/5

def mapperLambda : ℚ := 7/10

/-- Trace decay applied per component by GoalMapper.update (line 160). -/
def mapperDecay (e : ℚ) : ℚ := e * (mapperGamma * mapperLambda)

/-- Q-value increment applied per component by GoalMapper.update
(line 159). -/
def mapperQBump (tdError qi e : ℚ) : ℚ := qi + mapperAlpha * tdError * e

/-- The per-key sweep of GoalMapper.update (lines 158-162): every key in
the eligibility mapping receives the scaled TD error across its whole Q
vector, its trace vector is decayed multiplicatively, and the key is
deleted when the decayed vector's max magnitude falls below the
threshold. -/
def mapperSweep [DecidableEq κ] (tdError : ℚ) (Q : List (κ × List ℚ)) :
    List (κ × List ℚ) → List (κ × List ℚ) × List (κ × List ℚ)
  | [] => (Q, [])
  | (k, v) :: rest =>
    let qv := lookupVec 7 Q k
    let qv2 := List.zipWith (mapperQBump tdError) qv v
    let v2 := v.map mapperDecay
    let r := mapperSweep tdError (setVec Q k qv2) rest
    (r.1, if maxAbs v2 < traceThreshold then r.2 else (k, v2) :: r.2)

structure MapperUpdateResult (κ : Type) where
  Q : List (κ × List ℚ)
  eligibility : List (κ × List ℚ)
  tdError : ℚ
  deriving DecidableEq

/-- GoalMapper.update (lines 139-170), after the None-guard, with the
discretized next state passed as a key. -/
def mapperUpdate [DecidableEq κ] (Q elig : List (κ × List ℚ)) (cs : κ)
    (ca : ℕ) (nextState : κ) (reward : ℚ) (done : Bool) :
    MapperUpdateResult κ :=
  let target := if done then reward else reward + mapperGamma * vecMax (lookupVec 7 Q nextState)
  let currentQ := getEntry 7 Q cs ca
  let tdError := target - currentQ
  let r := mapperSweep tdError Q elig
  { Q := r.1, eligibility := r.2, tdError := tdError }


/-! ### KosmosActionPolicy: MLP forward pass and REINFORCE update
(kosmos/agent/action_policy.py lines 131-281)

Float arithmetic is modelled over the reals since the network uses tanh,
exp and sqrt.  Vectors and matrices are total functions on Fin. -/

structure TrajStep where
  state : Fin 35 → ℝ
  actionIdx : Fin 11
  probs : Fin 11 → ℝ
  hidden : Fin 32 → ℝ
  z1 : Fin 32 → ℝ
  temperature : ℝ
  reward : Option ℝ

structure KosmosActionPolicy where
  W1 : Fin 35 → Fin 32 → ℝ
  b1 : Fin 32 → ℝ
  W2 : Fin 32 → Fin 11 → ℝ
  b2 : Fin 11 → ℝ
  lr : ℝ
  gamma : ℝ
  baselineDecay : ℝ
  temperatureBase : ℝ
  trajectory : List TrajStep
  baseline : ℝ
  totalUpdates : ℕ

/-- z1 = state @ W1 + b1 (forward, line 163). -/
noncomputable def forwardZ1 (p : KosmosActionPolicy) (state : Fin 35 → ℝ) :
    Fin 32 → ℝ :=
  fun j => (∑ i, state i * p.W1 i j) + p.b1 j

/-- h = tanh(z1) (forward, line 164). -/
noncomputable def forwardHidden (p : KosmosActionPolicy)
    (state : Fin 35 → ℝ) : Fin 32 → ℝ :=
  fun j => Real.tanh (forwardZ1 p state j)

/-- logits = h @ W2 + b2 (forward, line 165). -/
noncomputable def forwardLogits (p : KosmosActionPolicy)
    (state : Fin 35 → ℝ) : Fin 11 → ℝ :=
  fun a => (∑ j, forwardHidden p state j * p.W2 j a) + p.b2 a

/-- scaled = logits / max(temperature, 0.01) (forward, line 166). -/
noncomputable def forwardScaled (p : KosmosActionPolicy)
    (state : Fin 35 → ℝ) (temperature : ℝ) : Fin 11 → ℝ :=
  fun a => forwardLogits p state a / max temperature (1/100)

/-- exp_l = exp(scaled - max(scaled)) (forward, line 167). -/
noncomputable def forwardExpL (p : KosmosActionPolicy)
    (state : Fin 35 → ℝ) (temperature : ℝ) : Fin 11 → ℝ :=
  fun a => Real.exp (forwardScaled p state temperature a -
    Finset.univ.sup' Finset.univ_nonempty (forwardScaled p state temperature))

/-- KosmosActionPolicy.forward (lines 161-169): hidden tanh layer, then a
temperature-scaled softmax whose divisor is floored at 0.01 and whose
denominator is padded with 1e-10.  Returns (probs, h, z1). -/
noncomputable def forward (p : KosmosActionPolicy) (state : Fin 35 → ℝ)
    (temperature : ℝ) : (Fin 11 → ℝ) × (Fin 32 → ℝ) × (Fin 32 → ℝ) :=
  (fun a => forwardExpL p state temperature a /
      ((∑ b, forwardExpL p state temperature b) + 1/10000000000),
   forwardHidden p state, forwardZ1 p state)

/-- Discounted returns computed backward through the trajectory
(lines 211-215). -/
noncomputable def discountedReturns (gamma : ℝ) (rewards : List ℝ) : List ℝ :=
  rewards.foldr
    (fun r acc =>
      match acc with
      | [] => [r]
      | g :: _ => (r + gamma * g) :: acc)
    []

structure UpdateStats where
  meanReturn : ℝ
  baseline : ℝ
  gradNorm : ℝ
  trajectoryLength : ℕ
  totalUpdates : ℕ

/-- KosmosActionPolicy.update (lines 201-281): REINFORCE with EMA
baseline, advantage standardisation, per-step softmax gradients averaged
over the trajectory, unit-L2 gradient clipping and one ascent step.
Returns none for the empty diagnostics dict of the degenerate branch. -/
noncomputable def policyUpdate (p : KosmosActionPolicy) :
    Option UpdateStats × KosmosActionPolicy :=
  let traj := p.trajectory.filter (fun t => t.reward.isSome)
  if traj.length < 2 then
    (none, { p with trajectory := [] })
  else
    let rewards := traj.map (fun t => t.reward.getD 0)
    let returns := discountedReturns p.gamma rewards
    let meanRet := returns.sum / (returns.length : ℝ)
    let baseline2 := p.baselineDecay * p.baseline + (1 - p.baselineDecay) * meanRet
    let advRaw := returns.map (fun g => g - baseline2)
    let advMean := advRaw.sum / (advRaw.length : ℝ)
    let std := Real.sqrt ((advRaw.map (fun a => (a - advMean) ^ 2)).sum / (advRaw.length : ℝ))
    let adv := if std > 1/100000000 then advRaw.map (fun a => a / std) else advRaw
    let paired := traj.zip adv
    let dl : TrajStep → Fin 11 → ℝ := fun t a =>
      ((if a = t.actionIdx then 1 else 0) - t.probs a) / t.temperature
    let n : ℝ := (traj.length : ℝ)
    let dW2 : Fin 32 → Fin 11 → ℝ := fun j a =>
      (paired.map (fun q => q.1.hidden j * dl q.1 a * q.2)).sum / n
    let db2 : Fin 11 → ℝ := fun a => (paired.map (fun q => dl q.1 a * q.2)).sum / n
    let dh : TrajStep → Fin 32 → ℝ := fun t j => ∑ a, dl t a * p.W2 j a
    let dz : TrajStep → Fin 32 → ℝ := fun t j => dh t j * (1 - (t.hidden j) ^ 2)
    let dW1 : Fin 35 → Fin 32 → ℝ := fun i j =>
      (paired.map (fun q => q.1.state i * dz q.1 j * q.2)).sum / n
    let db1 : Fin 32 → ℝ := fun j => (paired.map (fun q => dz q.1 j * q.2)).sum / n
    let totalNorm := Real.sqrt
      ((∑ i, ∑ j, (dW1 i j) ^ 2) + (∑ j, (db1 j) ^ 2)
        + (∑ j, ∑ a, (dW2 j a) ^ 2) + (∑ a, (db2 a) ^ 2))
    let scale := if totalNorm > 1 then 1 / totalNorm else 1
    (some { meanReturn := meanRet, baseline := baseline2, gradNorm := totalNorm,
            trajectoryLength := traj.length, totalUpdates := p.totalUpdates + 1 },
     { p with
         W1 := fun i j => p.W1 i j + p.lr * (dW1 i j * scale),
         b1 := fun j => p.b1 j + p.lr * (db1 j * scale),
         W2 := fun j a => p.W2 j a + p.lr * (dW2 j a * scale),
         b2 := fun a => p.b2 a + p.lr * (db2 a * scale),
         baseline := baseline2,
         totalUpdates := p.totalUpdates + 1,
         trajectory := [] })

/-! ### Demonstration buffer (kosmos/agent/demo_buffer.py lines 20-98)
and the Kosmos state encoding (action_policy.py lines 36-128) -/

def KOSMOS_ACTIONS : List String :=
  ["move_north", "move_south", "move_east", "move_west",
   "examine", "pickup", "consume", "craft", "rest",
   "remember", "wait"]

def STRATEGIES : List String := ["explore", "exploit", "rest", "learn", "social"]

def EMBODIED_GOALS : List String :=
  ["explore_space", "seek_food", "find_shelter", "rest_recover",
   "manipulate_objects", "social_interact", "categorize_experience"]

def BIOMES : List String := ["plains", "forest", "desert", "water", "rock"]

def TIMES_OF_DAY : List String := ["dawn", "day", "dusk", "night"]

/-- np.clip over the rationals. -/
def clip (x lo hi : ℚ) : ℚ := max lo (min x hi)

def boolQ (b : Bool) : ℚ := if b then 1 else 0

/-- The keyword arguments of encode_kosmos_state. -/
structure StateDict where
  energy : ℚ
  hydration : ℚ
  biome : String
  timeOfDay : String
  nearbyFood : ℕ
  nearbyWater : ℕ
  nearbyHazard : ℕ
  nearbyCraft : ℕ
  hasFoodHere : Bool
  hasWaterHere : Bool
  hasCraftHere : Bool
  hasHazardHere : Bool
  inventoryCount : ℕ
  canCraft : Bool
  strategy : String
  goal : String
  entropy : ℚ
  surplusMean : ℚ
  foodDx : ℚ
  foodDy : ℚ
  hazardDx : ℚ
  hazardDy : ℚ
  sigmaEma : ℚ
  deriving DecidableEq

/-- encode_kosmos_state (action_policy.py lines 36-128): 35-dim feature
vector, written as the same sequence of component assignments over an
all-zeros vector. -/
def encodeKosmosState (d : StateDict) : List ℚ :=
  let s0 := List.replicate 35 (0 : ℚ)
  let s1 := (s0.set 0 d.energy).set 1 d.hydration
  let s2 := if d.biome ∈ BIOMES then s1.set (2 + BIOMES.indexOf d.biome) 1 else s1
  let s3 :=
    if d.timeOfDay ∈ TIMES_OF_DAY then s2.set (7 + TIMES_OF_DAY.indexOf d.timeOfDay) 1
    else s2
  let s4 := (((s3.set 11 (((min d.nearbyFood 5 : ℕ) : ℚ) / 5)).set 12
    (((min d.nearbyWater 5 : ℕ) : ℚ) / 5)).set 13
    (((min d.nearbyHazard 5 : ℕ) : ℚ) / 5)).set 14
    (((min d.nearbyCraft 5 : ℕ) : ℚ) / 5)
  let s5 := (((s4.set 15 (boolQ d.hasFoodHere)).set 16 (boolQ d.hasWaterHere)).set 17
    (boolQ d.hasCraftHere)).set 18 (boolQ d.hasHazardHere)
  let s6 := (s5.set 19 (((min d.inventoryCount 10 : ℕ) : ℚ) / 10)).set 20 (boolQ d.canCraft)
  let s7 := if d.strategy ∈ STRATEGIES then s6.set (21 + STRATEGIES.indexOf d.strategy) 1 else s6
  let s8 :=
    if d.goal ∈ EMBODIED_GOALS then
      s7.set 26 ((EMBODIED_GOALS.indexOf d.goal : ℚ) / (EMBODIED_GOALS.length : ℚ))
    else s7
  let s9 := (s8.set 27 (clip d.entropy 0 1)).set 28 (clip d.surplusMean (-1) 1)
  let s10 := (((s9.set 29 (clip d.foodDx (-1) 1)).set 30 (clip d.foodDy (-1) 1)).set 31
    (clip d.hazardDx (-1) 1)).set 32 (clip d.hazardDy (-1) 1)
  let urgency := if d.hasFoodHere ∧ d.energy < 1/2 then (1/2 - d.energy) * 2 else 0
  let s11 := s10.set 33 urgency
  s11.set 34 (clip d.sigmaEma 0 1)

structure Demo where
  state : List ℚ
  actionIdx : ℕ
  reward : ℚ
  survivalTicks : ℕ
  source : String
  deriving DecidableEq

/-- The demonstration ring buffer: a deque with maxlen maxSize, plus the
survival tracker index list. -/
structure DemonstrationBuffer where
  maxSize : ℕ
  buffer : List Demo
  survivalTracker : List ℕ
  deriving DecidableEq

/-- DemonstrationBuffer.add (demo_buffer.py lines 36-71): the action name
is mapped to its index in KOSMOS_ACTIONS, with any unknown name mapped
to the index of the wait action; the demonstration is appended, the
deque evicting its oldest element when full.  Returns the new buffer and
the index of the added demo. -/
def DemonstrationBuffer.add (b : DemonstrationBuffer) (stateDict : StateDict)
    (actionName : String) (reward : ℚ) (source : String) :
    DemonstrationBuffer × ℕ :=
  let state := encodeKosmosState stateDict
  let actionIdx :=
    if actionName ∈ KOSMOS_ACTIONS then KOSMOS_ACTIONS.indexOf actionName
    else KOSMOS_ACTIONS.indexOf "wait"
  let demo : Demo :=
    { state := state, actionIdx := actionIdx, reward := reward,
      survivalTicks := 0, source := source }
  let buf := (b.buffer ++ [demo]).drop (b.buffer.length + 1 - b.maxSize)
  let idx := buf.length - 1
  ({ b with buffer := buf, survivalTracker := b.survivalTracker ++ [idx] }, idx)

/-! ### Concrete values used to exercise the theorems -/

/-- A concrete policy with a single rewarded trajectory step. -/
noncomputable def oneTrajStep : TrajStep where
  state := fun _ => 0
  actionIdx := 0
  probs := fun _ => 0
  hidden := fun _ => 0
  z1 := fun _ => 0
  temperature := 1
  reward := some 1

noncomputable def onePolicy : KosmosActionPolicy where
  W1 := fun _ _ => 0
  b1 := fun _ => 0
  W2 := fun _ _ => 0
  b2 := fun _ => 0
  lr := 1/1000
  gamma := 99/100
  baselineDecay := 95/100
  temperatureBase := 1
  trajectory := [oneTrajStep]
  baseline := 0
  totalUpdates := 0

/-- A concrete state dictionary. -/
def oneStateDict : StateDict where
  energy := 1/2
  hydration := 3/4
  biome := "forest"
  timeOfDay := "day"
  nearbyFood := 2
  nearbyWater := 1
  nearbyHazard := 0
  nearbyCraft := 0
  hasFoodHere := true
  hasWaterHere := false
  hasCraftHere := false
  hasHazardHere := false
  inventoryCount := 1
  canCraft := false
  strategy := "explore"
  goal := "seek_food"
  entropy := 1/2
  surplusMean := 1/10
  foodDx := 1/2
  foodDy := 0
  hazardDx := 0
  hazardDy := 0
  sigmaEma := 1/5

/-! ## Theorems -/

/-! ### Arbitration: crisis override and staleness (Claims C1, C5) -/

theorem consumePending_source_ne_survival {α : Type} (plan1 : List α)
    (pending : Option (LLMResult α)) (pendingTick totalTicks : ℤ) (hd : α) :
    (consumePending plan1 pending pendingTick totalTicks hd).source ≠
      DecisionSource.survivalReflex := by
  rcases pending with _ | res
  · simp [consumePending]
  · rcases res with ⟨steps, g⟩ | a
    · rcases steps with _ | ⟨d, rest⟩ <;>
        simp [consumePending] <;> split <;> simp
    · simp [consumePending]; split <;> simp

/-- Claim C1: on a tick whose consciousness zone is crisis (energy below
the 0.25 crisis bound) and on which no rupture was triggered, the
decision source is the survival-reflex heuristic, the decision is the
heuristic one, any in-progress plan queue is discarded and the learned
policy is not used — for every trust probability, random draw and plan
queue; conversely, on a tick where a rupture was triggered the
survival-reflex override is never applied. -/
theorem crisis_forces_survival_reflex (α : Type) :
    (∀ (energy entropy draw teacherProb : ℚ)
      (hasPolicy shouldInterrupt usePlanning : Bool) (plan : List α)
      (pending : Option (LLMResult α)) (pendingTick totalTicks : ℤ) (hd pd : α),
      energy < 1/4 →
      (decideStep energy entropy false hasPolicy draw teacherProb
          shouldInterrupt usePlanning plan pending pendingTick totalTicks hd pd) =
        { source := DecisionSource.survivalReflex, decision := hd, plan := [],
          pending := pending, usedLearned := false }) ∧
    (∀ (energy entropy draw teacherProb : ℚ)
      (hasPolicy shouldInterrupt usePlanning : Bool) (plan : List α)
      (pending : Option (LLMResult α)) (pendingTick totalTicks : ℤ) (hd pd : α),
      (decideStep energy entropy true hasPolicy draw teacherProb
          shouldInterrupt usePlanning plan pending pendingTick totalTicks hd pd).source ≠
        DecisionSource.survivalReflex) := by
  constructor
  · intro energy entropy draw teacherProb hasPolicy shouldInterrupt usePlanning
      plan pending pendingTick totalTicks hd pd hcrisis
    have hz : classifyZone energy entropy = Zone.crisis := by
      unfold classifyZone
      rw [if_pos hcrisis]
    simp [decideStep, hz]
  · intro energy entropy draw teacherProb hasPolicy shouldInterrupt usePlanning
      plan pending pendingTick totalTicks hd pd
    simp only [decideStep]
    split
    · rename_i hcond
      exact absurd trivial hcond.2
    · split
      · simp
      · split
        · split
          · simp
          · apply consumePending_source_ne_survival
        · apply consumePending_source_ne_survival

theorem crisis_forces_survival_reflex_witness :
    ((1:ℚ)/10 < 1/4) ∧
    (decideStep (α := ℕ) (1/10) (1/2) false true 1 0 false true [7, 8]
        (some (LLMResult.single 9)) 0 0 5 6) =
      { source := DecisionSource.survivalReflex, decision := 5, plan := [],
        pending := some (LLMResult.single 9), usedLearned := false } :=
  ⟨by norm_num,
   (crisis_forces_survival_reflex ℕ).1 (1/10) (1/2) 1 0 true false true [7, 8]
     (some (LLMResult.single 9)) 0 0 5 6 (by norm_num)⟩

theorem consumePending_stale {α : Type} (plan1 : List α) (res : LLMResult α)
    (pendingTick totalTicks : ℤ) (hd : α) (h : 3 < totalTicks - pendingTick) :
    consumePending plan1 (some res) pendingTick totalTicks hd =
      { source := DecisionSource.teacherHeuristic, decision := hd,
        plan := plan1, pending := none, usedLearned := false } := by
  simp only [consumePending]
  rw [if_neg (not_le.mpr h)]

/-- Claim C5: on the teacher path, when a pending asynchronous reasoner
result is examined and its age (current tick minus request tick) exceeds
the staleness bound of 3 ticks, the result is discarded: the pending
slot is cleared, the decision comes from the heuristic fallback, and the
plan queue is never set from the stale result. -/
theorem stale_llm_result_discarded {α : Type}
    (energy entropy draw teacherProb : ℚ)
    (shouldRupture hasPolicy shouldInterrupt usePlanning : Bool)
    (plan : List α) (res : LLMResult α) (pendingTick totalTicks : ℤ) (hd pd : α)
    (hnc : classifyZone energy entropy ≠ Zone.crisis ∨ shouldRupture = true)
    (hns : ¬(hasPolicy = true ∧ teacherProb < draw))
    (hpl : usePlanning = false ∨ plan = [])
    (hstale : 3 < totalTicks - pendingTick) :
    (decideStep energy entropy shouldRupture hasPolicy draw teacherProb
        shouldInterrupt usePlanning plan (some res) pendingTick totalTicks hd pd) =
      { source := DecisionSource.teacherHeuristic, decision := hd,
        plan := if shouldRupture = true then []
          else if (shouldInterrupt && !plan.isEmpty) = true then [] else plan,
        pending := none, usedLearned := false } := by
  cases shouldRupture with
  | true =>
    simp only [decideStep]
    rw [if_neg (fun hh => hh.2 trivial), if_neg hns]
    cases usePlanning <;>
      simp [consumePending_stale _ _ _ _ _ hstale]
  | false =>
    have hcz : classifyZone energy entropy ≠ Zone.crisis := by
      rcases hnc with h | h
      · exact h
      · exact absurd h (by simp)
    simp only [decideStep]
    rw [if_neg (fun hh => hcz hh.1), if_neg hns]
    rcases hpl with h | h
    · subst h
      simp only [Bool.false_eq_true, if_false]
      rw [consumePending_stale _ _ _ _ _ hstale]
    · subst h
      cases usePlanning <;>
        simp [consumePending_stale _ _ _ _ _ hstale]

theorem stale_llm_result_discarded_witness :
    ((3:ℤ) < 15 - 5) ∧
    (decideStep (α := ℕ) (1/2) (1/2) false true 0 1 false false [7, 8]
        (some (LLMResult.plan [1, 2, 3] "g")) 5 15 4 6) =
      { source := DecisionSource.teacherHeuristic, decision := 4,
        plan := [7, 8], pending := none, usedLearned := false } := by
  refine ⟨by norm_num, ?_⟩
  have h := stale_llm_result_discarded (α := ℕ) (1/2) (1/2) 0 1 false true false false
    [7, 8] (LLMResult.plan [1, 2, 3] "g") 5 15 4 6
    (Or.inl (by norm_num [classifyZone]; simp)) (by norm_num) (Or.inl rfl) (by norm_num)
  simpa using h


/-! ### Trust-probability invariant (Claim C2) -/

theorem trustStep_teacherProb_mem (s : TrustState) (o : TrustObs)
    (h1 : POLICY_TEACHER_MIN ≤ s.teacherProb) (h2 : s.teacherProb ≤ 1) :
    POLICY_TEACHER_MIN ≤ (trustStep s o).teacherProb ∧
      (trustStep s o).teacherProb ≤ 1 := by
  have hp0 : (0:ℚ) ≤ s.teacherProb :=
    le_trans (by norm_num [POLICY_TEACHER_MIN]) h1
  have hup : ∀ c : ℚ, 0 ≤ c → c ≤ 1 → s.teacherProb * c ≤ 1 :=
    fun c hc0 hc1 => mul_le_one₀ h2 hc0 hc1
  have hrec : s.teacherProb ≤ s.teacherProb * (10005/10000) :=
    le_mul_of_one_le_right hp0 (by norm_num)
  simp only [trustStep]
  split_ifs with hw hb hc hr
  · exact ⟨le_max_left _ _,
      max_le (by norm_num [POLICY_TEACHER_MIN]) (hup _ (by norm_num) (by norm_num))⟩
  · exact ⟨le_max_left _ _,
      max_le (by norm_num [POLICY_TEACHER_MIN]) (hup _ (by norm_num) (by norm_num))⟩
  · exact ⟨le_max_left _ _,
      max_le (by norm_num [POLICY_TEACHER_MIN])
        (hup _ (by norm_num [POLICY_TEACHER_DECAY]) (by norm_num [POLICY_TEACHER_DECAY]))⟩
  · exact ⟨le_min (by norm_num [POLICY_TEACHER_MIN]) (le_trans h1 hrec),
      le_trans (min_le_left _ _) (by norm_num)⟩
  · exact ⟨h1, h2⟩

theorem trust_foldl_mem (obs : List TrustObs) (s : TrustState)
    (h1 : POLICY_TEACHER_MIN ≤ s.teacherProb) (h2 : s.teacherProb ≤ 1) :
    POLICY_TEACHER_MIN ≤ (obs.foldl trustStep s).teacherProb ∧
      (obs.foldl trustStep s).teacherProb ≤ 1 := by
  induction obs generalizing s with
  | nil => exact ⟨h1, h2⟩
  | cons o rest ih =>
    have hstep := trustStep_teacherProb_mem s o h1 h2
    exact ih (trustStep s o) hstep.1 hstep.2

/-- Claim C2: across every sequence of per-tick trust updates starting
from the construction-time teacher probability 1, the trust probability
stays inside [POLICY_TEACHER_MIN, 1]; moreover the slow-recovery branch
(past warmup evaluation threshold, survival not competent) always yields
a probability at most 0.85. -/
theorem teacher_prob_bounds :
    (∀ obs : List TrustObs,
      POLICY_TEACHER_MIN ≤ (obs.foldl trustStep trustStart).teacherProb ∧
        (obs.foldl trustStep trustStart).teacherProb ≤ 1) ∧
    (∀ (s : TrustState) (o : TrustObs),
      teacherWarmup + 500 ≤ o.learnedSamples →
      ¬(o.deathRateEma ≤ (12/10) * s.baselineDeathRate) →
      (trustStep s o).teacherProb ≤ 85/100) := by
  constructor
  · intro obs
    exact trust_foldl_mem obs trustStart
      (by norm_num [POLICY_TEACHER_MIN, trustStart]) (by norm_num [trustStart])
  · intro s o hsamp hsurv
    have hnw : ¬(o.learnedSamples < teacherWarmup) := by
      unfold teacherWarmup at *
      omega
    simp only [trustStep]
    rw [if_neg hnw, if_neg (fun hh => hsurv hh.2.2), if_pos ⟨hsamp, hsurv⟩]
    exact min_le_left _ _

theorem teacher_prob_bounds_witness :
    (POLICY_TEACHER_MIN ≤
      (([{ learnedSamples := 0, learnedRewardEma := 0, heuristicRewardEma := 0,
           deathRateEma := 20 },
         { learnedSamples := 2600, learnedRewardEma := 5, heuristicRewardEma := 1,
           deathRateEma := 10 }] : List TrustObs).foldl trustStep trustStart).teacherProb) ∧
    (teacherWarmup + 500 ≤ 2600) ∧
    ¬((50:ℚ) ≤ (12/10) * trustStart.baselineDeathRate) ∧
    ((trustStep trustStart
        { learnedSamples := 2600, learnedRewardEma := 5, heuristicRewardEma := 1,
          deathRateEma := 50 }).teacherProb ≤ 85/100) :=
  ⟨(teacher_prob_bounds.1 _).1,
   by norm_num [teacherWarmup],
   by norm_num [trustStart],
   teacher_prob_bounds.2 trustStart
     { learnedSamples := 2600, learnedRewardEma := 5, heuristicRewardEma := 1,
       deathRateEma := 50 }
     (by norm_num [teacherWarmup]) (by norm_num [trustStart])⟩

/-! ### Rupture cooldown (Claim C3) and threshold multiplier (Claim C4) -/

theorem runChecks_all_false (L : List (ℚ × ℚ)) (s : RuptureState)
    (h : (L.length : ℤ) ≤ s.cooldown) : ∀ b ∈ (runChecks s L).1, b = false := by
  induction L generalizing s with
  | nil => intro b hb; simp [runChecks] at hb
  | cons p rest ih =>
    intro b hb
    have hpos : s.cooldown > 0 := by
      simp only [List.length_cons] at h
      omega
    simp only [runChecks, checkRupture, if_pos hpos] at hb
    rcases List.mem_cons.mp hb with h1 | h1
    · exact h1
    · refine ih { s with cooldown := s.cooldown - 1 } ?_ b h1
      simp only [List.length_cons] at h
      show (rest.length : ℤ) ≤ s.cooldown - 1
      omega

/-- Claim C3: after a rupture fires the cooldown is set to
RUPTURE_COOLDOWN = 50, the next 50 rupture checks all return false no
matter how large the smoothed curvature or how low the dynamic threshold
becomes (so two ruptures are never separated by fewer than the cooldown
window of steps), and a nonnegative cooldown counter stays nonnegative. -/
theorem rupture_cooldown_blocks :
    (∀ (r : ℕ) (L : List (ℚ × ℚ)), L.length ≤ 50 →
      ∀ b ∈ (runChecks { cooldown := RUPTURE_COOLDOWN, rupturesTriggered := r } L).1,
        b = false) ∧
    (∀ (s : RuptureState) (sigmaEma dynThreshold : ℚ),
      (checkRupture s sigmaEma dynThreshold).1 = true →
      (checkRupture s sigmaEma dynThreshold).2.cooldown = RUPTURE_COOLDOWN) ∧
    (∀ (s : RuptureState) (sigmaEma dynThreshold : ℚ), 0 ≤ s.cooldown →
      0 ≤ (checkRupture s sigmaEma dynThreshold).2.cooldown) := by
  refine ⟨?_, ?_, ?_⟩
  · intro r L hlen
    apply runChecks_all_false
    show (L.length : ℤ) ≤ RUPTURE_COOLDOWN
    simp only [RUPTURE_COOLDOWN]
    exact_mod_cast hlen
  · intro s sigmaEma dynThreshold hfire
    unfold checkRupture at hfire ⊢
    split_ifs at hfire ⊢
    rfl
  · intro s sigmaEma dynThreshold hnn
    unfold checkRupture
    split_ifs with hcd hth
    · show (0:ℤ) ≤ s.cooldown - 1
      omega
    · show (0:ℤ) ≤ RUPTURE_COOLDOWN
      simp [RUPTURE_COOLDOWN]
    · exact hnn

theorem rupture_cooldown_blocks_witness :
    ((runChecks { cooldown := RUPTURE_COOLDOWN, rupturesTriggered := 1 }
        [((1000 : ℚ), (0 : ℚ))]).1.headD true = false) ∧
    ((checkRupture { cooldown := 0, rupturesTriggered := 0 } 1000 0).2.cooldown =
      RUPTURE_COOLDOWN) ∧
    (0 ≤ (checkRupture { cooldown := 0, rupturesTriggered := 0 } 1000 0).2.cooldown) :=
  ⟨rupture_cooldown_blocks.1 1 [((1000 : ℚ), (0 : ℚ))] (by norm_num) _ (by
      show _ ∈ (runChecks _ _).1
      simp [runChecks, checkRupture, RUPTURE_COOLDOWN]),
   rupture_cooldown_blocks.2.1 _ 1000 0 (by norm_num [checkRupture]),
   rupture_cooldown_blocks.2.2 { cooldown := 0, rupturesTriggered := 0 } 1000 0 le_rfl⟩

/-- Claim C4: the rupture-threshold multiplier k_effective is
monotonically non-increasing in the count of recent deaths, bounded
below by the 0.5 floor and above by the 2.0 base. -/
theorem k_effective_monotone :
    (∀ d1 d2 : ℕ, d1 ≤ d2 → kEffectiveOfDeaths d2 ≤ kEffectiveOfDeaths d1) ∧
    (∀ d : ℕ, 1/2 ≤ kEffectiveOfDeaths d ∧ kEffectiveOfDeaths d ≤ 2) ∧
    (∀ (deathTicks : List ℤ) (currentTick : ℤ),
      kEffective deathTicks currentTick =
        kEffectiveOfDeaths (recentDeathCount deathTicks currentTick)) := by
  refine ⟨?_, ?_, fun _ _ => rfl⟩
  · intro d1 d2 hle
    unfold kEffectiveOfDeaths
    apply max_le_max le_rfl
    have : (d1 : ℚ) ≤ (d2 : ℚ) := by exact_mod_cast hle
    nlinarith
  · intro d
    unfold kEffectiveOfDeaths
    constructor
    · exact le_max_left _ _
    · apply max_le
      · norm_num
      · have : (0:ℚ) ≤ (d : ℚ) := by positivity
        nlinarith

theorem k_effective_monotone_witness :
    (kEffectiveOfDeaths 3 ≤ kEffectiveOfDeaths 1) ∧
    (1/2 ≤ kEffectiveOfDeaths 2 ∧ kEffectiveOfDeaths 2 ≤ 2) ∧
    (kEffective [0, 100] 150 = kEffectiveOfDeaths (recentDeathCount [0, 100] 150)) :=
  ⟨k_effective_monotone.1 1 3 (by norm_num),
   k_effective_monotone.2.1 2,
   k_effective_monotone.2.2 [0, 100] 150⟩

/-! ### Association-map lemmas -/

theorem lookupVec_setVec_self [DecidableEq κ] (n : ℕ) (m : List (κ × List ℚ))
    (k : κ) (v : List ℚ) : lookupVec n (setVec m k v) k = v := by
  induction m with
  | nil => simp [setVec, lookupVec]
  | cons p rest ih =>
    by_cases h : p.1 = k
    · simp [setVec, h, lookupVec]
    · simp [setVec, h, lookupVec, ih]

theorem lookupVec_setVec_ne [DecidableEq κ] (n : ℕ) (m : List (κ × List ℚ))
    (k q : κ) (v : List ℚ) (h : q ≠ k) :
    lookupVec n (setVec m k v) q = lookupVec n m q := by
  induction m with
  | nil => simp [setVec, lookupVec, Ne.symm h]
  | cons p rest ih =>
    by_cases hp : p.1 = k
    · simp only [setVec, if_pos hp, lookupVec, Ne.symm h, if_false]
      rw [if_neg (by rw [hp]; exact Ne.symm h)]
    · simp only [setVec, if_neg hp, lookupVec]
      by_cases hq : p.1 = q
      · rw [if_pos hq, if_pos hq]
      · rw [if_neg hq, if_neg hq, ih]

theorem setVec_mem_self [DecidableEq κ] (m : List (κ × List ℚ)) (k : κ)
    (v : List ℚ) : (k, v) ∈ setVec m k v := by
  induction m with
  | nil => simp [setVec]
  | cons p rest ih =>
    by_cases h : p.1 = k
    · simp [setVec, h]
    · simp only [setVec, if_neg h]
      exact List.mem_cons_of_mem _ ih

theorem setVec_map_fst [DecidableEq κ] (m : List (κ × List ℚ)) (k : κ)
    (v : List ℚ) :
    (setVec m k v).map Prod.fst = m.map Prod.fst ∨
      ((setVec m k v).map Prod.fst = m.map Prod.fst ++ [k] ∧
        k ∉ m.map Prod.fst) := by
  induction m with
  | nil => right; simp [setVec]
  | cons p rest ih =>
    by_cases h : p.1 = k
    · left; simp [setVec, h]
    · rcases ih with ih | ⟨ih1, ih2⟩
      · left; simp [setVec, if_neg h, ih]
      · right
        constructor
        · simp [setVec, if_neg h, ih1]
        · simp only [List.map_cons, List.mem_cons]
          rintro (hh | hh)
          · exact h hh.symm
          · exact ih2 hh

theorem setVec_nodup [DecidableEq κ] (m : List (κ × List ℚ)) (k : κ)
    (v : List ℚ) (h : (m.map Prod.fst).Nodup) :
    ((setVec m k v).map Prod.fst).Nodup := by
  rcases setVec_map_fst m k v with heq | ⟨heq, hnmem⟩
  · rw [heq]; exact h
  · rw [heq]
    refine List.Nodup.append h (List.nodup_singleton k) ?_
    intro a ha hb
    rw [List.mem_singleton] at hb
    exact hnmem (hb ▸ ha)

theorem not_mem_lookupVec [DecidableEq κ] (n : ℕ) (m : List (κ × List ℚ))
    (k : κ) (h : k ∉ m.map Prod.fst) :
    lookupVec n m k = List.replicate n 0 := by
  induction m with
  | nil => rfl
  | cons p rest ih =>
    simp only [List.map_cons, List.mem_cons] at h
    push_neg at h
    simp only [lookupVec]
    rw [if_neg (fun hh => h.1 hh.symm)]
    exact ih h.2

theorem lookupVec_mem [DecidableEq κ] (n : ℕ) (m : List (κ × List ℚ))
    (k : κ) (h : k ∈ m.map Prod.fst) : (k, lookupVec n m k) ∈ m := by
  induction m with
  | nil => simp at h
  | cons p rest ih =>
    by_cases hp : p.1 = k
    · simp only [lookupVec, if_pos hp]
      have hkp : (k, p.2) = p := by rw [← hp]
      rw [hkp]
      exact List.mem_cons_self p rest
    · simp only [List.map_cons, List.mem_cons] at h
      rcases h with h | h
      · exact absurd h.symm hp
      · simp only [lookupVec, if_neg hp]
        exact List.mem_cons_of_mem _ (ih h)

theorem lookupVec_map_values [DecidableEq κ] (n : ℕ) (m : List (κ × List ℚ))
    (k : κ) (d : ℚ → ℚ) (hd : d 0 = 0) :
    lookupVec n (m.map (fun p => (p.1, p.2.map d))) k =
      (lookupVec n m k).map d := by
  induction m with
  | nil =>
    simp only [List.map_nil, lookupVec, List.map_replicate, hd]
  | cons p rest ih =>
    by_cases hp : p.1 = k
    · simp [lookupVec, hp]
    · simp only [List.map_cons, lookupVec, if_neg hp]
      exact ih

theorem map_getD (d : ℚ → ℚ) (hd : d 0 = 0) (v : List ℚ) (i : ℕ) :
    (v.map d).getD i 0 = d (v.getD i 0) := by
  rw [List.getD_eq_getElem?_getD, List.getD_eq_getElem?_getD, List.getElem?_map]
  cases v[i]? with
  | none => simp [hd]
  | some x => simp

theorem getD_set_outside (v : List ℚ) (j : ℕ) (x : ℚ) (i : ℕ) (h : i ≠ j) :
    (v.set j x).getD i 0 = v.getD i 0 := by
  rw [List.getD_eq_getElem?_getD, List.getD_eq_getElem?_getD,
    List.getElem?_set_ne (Ne.symm h)]

theorem getD_set_inside (v : List ℚ) (j : ℕ) (x : ℚ) (h : j < v.length) :
    (v.set j x).getD j 0 = x := by
  rw [List.getD_eq_getElem?_getD, List.getElem?_set_eq_of_lt x h]
  rfl

theorem getD_replicate_zero (n a : ℕ) : (List.replicate n (0:ℚ)).getD a 0 = 0 := by
  rw [List.getD_eq_getElem?_getD, List.getElem?_replicate]
  split <;> rfl

theorem zipWith_getD (f : ℚ → ℚ → ℚ) (xs ys : List ℚ) (i : ℕ)
    (hx : i < xs.length) (hy : i < ys.length) :
    (List.zipWith f xs ys).getD i 0 = f (xs.getD i 0) (ys.getD i 0) := by
  induction xs generalizing ys i with
  | nil => simp at hx
  | cons x xs ih =>
    cases ys with
    | nil => simp at hy
    | cons y ys =>
      cases i with
      | zero => rfl
      | succ j =>
        simp only [List.zipWith_cons_cons, List.getD_cons_succ]
        exact ih ys j (by simpa using hx) (by simpa using hy)

/-! ### Sweep lemmas for the two TD(lambda) learners -/

theorem v2Decay_zero : v2Decay 0 = 0 := by
  norm_num [v2Decay, traceThreshold]

theorem v2Decay_abs_le (e : ℚ) : |v2Decay e| ≤ |e| := by
  unfold v2Decay
  split_ifs with h
  · rw [abs_mul]
    apply mul_le_of_le_one_right (abs_nonneg e)
    have hgl : v2Gamma * v2Lambda = 14/25 := by norm_num [v2Gamma, v2Lambda]
    rw [hgl, abs_of_nonneg (by norm_num : (0:ℚ) ≤ 14/25)]
    norm_num
  · exact le_refl _

theorem mapperDecay_zero : mapperDecay 0 = 0 := by
  norm_num [mapperDecay]

theorem mapperDecay_abs_le (e : ℚ) : |mapperDecay e| ≤ |e| := by
  unfold mapperDecay
  rw [abs_mul]
  apply mul_le_of_le_one_right (abs_nonneg e)
  have hgl : mapperGamma * mapperLambda = 14/25 := by
    norm_num [mapperGamma, mapperLambda]
  rw [hgl, abs_of_nonneg (by norm_num : (0:ℚ) ≤ 14/25)]
  norm_num

theorem v2Sweep_eligibility [DecidableEq κ] (a err : ℚ)
    (entries : List (κ × List ℚ)) (Q : List (κ × List ℚ)) :
    (v2Sweep a err Q entries).2 =
      entries.map (fun p => (p.1, p.2.map v2Decay)) := by
  induction entries generalizing Q with
  | nil => rfl
  | cons p rest ih =>
    obtain ⟨k, v⟩ := p
    simp only [v2Sweep, List.map_cons]
    rw [ih]

theorem v2Sweep_Q_not_mem [DecidableEq κ] (a err : ℚ)
    (entries : List (κ × List ℚ)) (Q : List (κ × List ℚ)) (k : κ)
    (h : k ∉ entries.map Prod.fst) :
    lookupVec 5 (v2Sweep a err Q entries).1 k = lookupVec 5 Q k := by
  induction entries generalizing Q with
  | nil => rfl
  | cons p rest ih =>
    obtain ⟨q, v⟩ := p
    simp only [List.map_cons, List.mem_cons] at h
    push_neg at h
    simp only [v2Sweep]
    rw [ih _ h.2]
    split
    · exact lookupVec_setVec_ne 5 Q q k _ h.1
    · rfl

theorem v2Sweep_Q_mem [DecidableEq κ] (a err : ℚ)
    (entries : List (κ × List ℚ)) (Q : List (κ × List ℚ)) (k : κ) (v : List ℚ)
    (hnd : (entries.map Prod.fst).Nodup) (hmem : (k, v) ∈ entries)
    (hany : v.any (fun e => decide (e > traceThreshold)) = true) :
    lookupVec 5 (v2Sweep a err Q entries).1 k =
      List.zipWith (v2QBump a err) v (lookupVec 5 Q k) := by
  induction entries generalizing Q with
  | nil => simp at hmem
  | cons p rest ih =>
    obtain ⟨q, w⟩ := p
    rw [List.map_cons] at hnd
    rcases List.mem_cons.mp hmem with heq | hmem'
    · rw [Prod.mk.injEq] at heq
      obtain ⟨h1, h2⟩ := heq
      subst h1
      subst h2
      simp only [v2Sweep]
      rw [if_pos hany]
      have hknr : k ∉ rest.map Prod.fst := (List.nodup_cons.mp hnd).1
      rw [v2Sweep_Q_not_mem a err rest _ k hknr, lookupVec_setVec_self]
    · have hkm : k ∈ rest.map Prod.fst := by
        have := List.mem_map_of_mem Prod.fst hmem'
        simpa using this
      have hkq : q ≠ k := fun hh => (List.nodup_cons.mp hnd).1 (hh ▸ hkm)
      simp only [v2Sweep]
      rw [ih _ (List.nodup_cons.mp hnd).2 hmem']
      congr 1
      split
      · exact lookupVec_setVec_ne 5 Q q k _ (Ne.symm hkq)
      · rfl

theorem mapperSweep_Q_not_mem [DecidableEq κ] (err : ℚ)
    (entries : List (κ × List ℚ)) (Q : List (κ × List ℚ)) (k : κ)
    (h : k ∉ entries.map Prod.fst) :
    lookupVec 7 (mapperSweep err Q entries).1 k = lookupVec 7 Q k := by
  induction entries generalizing Q with
  | nil => rfl
  | cons p rest ih =>
    obtain ⟨q, v⟩ := p
    simp only [List.map_cons, List.mem_cons] at h
    push_neg at h
    simp only [mapperSweep]
    rw [ih _ h.2]
    exact lookupVec_setVec_ne 7 Q q k _ h.1

theorem mapperSweep_Q_mem [DecidableEq κ] (err : ℚ)
    (entries : List (κ × List ℚ)) (Q : List (κ × List ℚ)) (k : κ) (v : List ℚ)
    (hnd : (entries.map Prod.fst).Nodup) (hmem : (k, v) ∈ entries) :
    lookupVec 7 (mapperSweep err Q entries).1 k =
      List.zipWith (mapperQBump err) (lookupVec 7 Q k) v := by
  induction entries generalizing Q with
  | nil => simp at hmem
  | cons p rest ih =>
    obtain ⟨q, w⟩ := p
    rw [List.map_cons] at hnd
    rcases List.mem_cons.mp hmem with heq | hmem'
    · rw [Prod.mk.injEq] at heq
      obtain ⟨h1, h2⟩ := heq
      subst h1
      subst h2
      simp only [mapperSweep]
      have hknr : k ∉ rest.map Prod.fst := (List.nodup_cons.mp hnd).1
      rw [mapperSweep_Q_not_mem err rest _ k hknr, lookupVec_setVec_self]
    · have hkm : k ∈ rest.map Prod.fst := by
        have := List.mem_map_of_mem Prod.fst hmem'
        simpa using this
      have hkq : q ≠ k := fun hh => (List.nodup_cons.mp hnd).1 (hh ▸ hkm)
      simp only [mapperSweep]
      rw [ih _ (List.nodup_cons.mp hnd).2 hmem']
      congr 1
      exact lookupVec_setVec_ne 7 Q q k _ (Ne.symm hkq)

theorem mapperSweep_elig_not_mem [DecidableEq κ] (err : ℚ)
    (entries : List (κ × List ℚ)) (Q : List (κ × List ℚ)) (k : κ)
    (h : k ∉ entries.map Prod.fst) :
    lookupVec 7 (mapperSweep err Q entries).2 k = List.replicate 7 0 := by
  induction entries generalizing Q with
  | nil => rfl
  | cons p rest ih =>
    obtain ⟨q, v⟩ := p
    simp only [List.map_cons, List.mem_cons] at h
    push_neg at h
    simp only [mapperSweep]
    split
    · exact ih _ h.2
    · simp only [lookupVec]
      rw [if_neg (fun hh => h.1 hh.symm)]
      exact ih _ h.2

theorem mapperSweep_elig_getD [DecidableEq κ] (err : ℚ)
    (entries : List (κ × List ℚ)) (Q : List (κ × List ℚ)) (k : κ) (i : ℕ)
    (hnd : (entries.map Prod.fst).Nodup) :
    |(lookupVec 7 (mapperSweep err Q entries).2 k).getD i 0| ≤
      |(lookupVec 7 entries k).getD i 0| := by
  induction entries generalizing Q with
  | nil => simp only [mapperSweep, lookupVec]; exact le_refl _
  | cons p rest ih =>
    obtain ⟨q, v⟩ := p
    rw [List.map_cons] at hnd
    by_cases hq : q = k
    · subst hq
      have hknr : q ∉ rest.map Prod.fst := (List.nodup_cons.mp hnd).1
      simp only [mapperSweep, lookupVec, eq_self_iff_true, if_true]
      split
      · rw [mapperSweep_elig_not_mem err rest _ q hknr, getD_replicate_zero]
        simp only [abs_zero]
        exact abs_nonneg _
      · simp only [lookupVec, eq_self_iff_true, if_true]
        rw [map_getD mapperDecay mapperDecay_zero]
        exact mapperDecay_abs_le _
    · simp only [mapperSweep, lookupVec]
      rw [if_neg hq]
      split
      · exact ih _ (List.nodup_cons.mp hnd).2
      · simp only [lookupVec]
        rw [if_neg hq]
        exact ih _ (List.nodup_cons.mp hnd).2

theorem mapperSweep_elig_pruned [DecidableEq κ] (err : ℚ)
    (entries : List (κ × List ℚ)) (Q : List (κ × List ℚ)) :
    ∀ p ∈ (mapperSweep err Q entries).2, ¬ maxAbs p.2 < traceThreshold := by
  induction entries generalizing Q with
  | nil => intro p hp; simp [mapperSweep] at hp
  | cons e rest ih =>
    obtain ⟨q, v⟩ := e
    intro p hp
    simp only [mapperSweep] at hp
    revert hp
    split
    · intro hp
      exact ih _ p hp
    · intro hp
      rcases List.mem_cons.mp hp with heq | htail
      · subst heq
        assumption
      · exact ih _ p htail

/-! ### Q-change characterisation at the current (state, action) pair -/

theorem v2Update_Q_at [DecidableEq κ] (Q elig : List (κ × List ℚ)) (cs : κ)
    (ca : ℕ) (ns : κ) (r : ℚ) (done : Bool) (visits : ℕ)
    (hnd : (elig.map Prod.fst).Nodup)
    (hlen : (lookupVec 5 elig cs).length = 5)
    (hQlen : (lookupVec 5 Q cs).length = 5)
    (hca : ca < 5)
    (hnn : 0 ≤ getEntry 5 elig cs ca) :
    getEntry 5 (v2Update Q elig cs ca ns r done visits).Q cs ca =
      getEntry 5 Q cs ca +
        v2Alpha / (1 + (1/100) * (visits : ℚ)) *
          (v2Update Q elig cs ca ns r done visits).tdError *
          (getEntry 5 elig cs ca + 1) := by
  have hthr : getEntry 5 elig cs ca + 1 > traceThreshold := by
    have h1 : traceThreshold < 1 := by norm_num [traceThreshold]
    linarith
  have hca5 : ca < (lookupVec 5 elig cs).length := by
    rw [hlen]
    exact hca
  have hcaQ : ca < (lookupVec 5 Q cs).length := by
    rw [hQlen]
    exact hca
  have hv'len : ((lookupVec 5 elig cs).set ca
      ((lookupVec 5 elig cs).getD ca 0 + 1)).length = 5 := by
    rw [List.length_set]
    exact hlen
  have hcalt : ca < ((lookupVec 5 elig cs).set ca
      ((lookupVec 5 elig cs).getD ca 0 + 1)).length := by
    rw [hv'len]
    exact hca
  have hv'ca : ((lookupVec 5 elig cs).set ca
      ((lookupVec 5 elig cs).getD ca 0 + 1)).getD ca 0 =
      getEntry 5 elig cs ca + 1 :=
    getD_set_inside _ _ _ hca5
  have hmemv' : getEntry 5 elig cs ca + 1 ∈
      (lookupVec 5 elig cs).set ca ((lookupVec 5 elig cs).getD ca 0 + 1) := by
    have hsome : ((lookupVec 5 elig cs).set ca
        ((lookupVec 5 elig cs).getD ca 0 + 1))[ca]? =
        some (((lookupVec 5 elig cs).set ca
          ((lookupVec 5 elig cs).getD ca 0 + 1))[ca]) :=
      List.getElem?_eq_getElem hcalt
    have hval : ((lookupVec 5 elig cs).set ca
        ((lookupVec 5 elig cs).getD ca 0 + 1))[ca] =
        getEntry 5 elig cs ca + 1 := by
      have := hv'ca
      rw [List.getD_eq_getElem?_getD, hsome] at this
      simpa using this
    rw [← hval]
    exact List.getElem_mem hcalt
  have hany : ((lookupVec 5 elig cs).set ca
      ((lookupVec 5 elig cs).getD ca 0 + 1)).any
      (fun e => decide (e > traceThreshold)) = true := by
    rw [List.any_eq_true]
    exact ⟨getEntry 5 elig cs ca + 1, hmemv', decide_eq_true hthr⟩
  have hnd1 : (((setVec elig cs ((lookupVec 5 elig cs).set ca
      ((lookupVec 5 elig cs).getD ca 0 + 1)))).map Prod.fst).Nodup :=
    setVec_nodup elig cs _ hnd
  have hmem1 : (cs, (lookupVec 5 elig cs).set ca
      ((lookupVec 5 elig cs).getD ca 0 + 1)) ∈
      setVec elig cs ((lookupVec 5 elig cs).set ca
        ((lookupVec 5 elig cs).getD ca 0 + 1)) :=
    setVec_mem_self elig cs _
  simp only [v2Update, getEntry]
  rw [v2Sweep_Q_mem _ _ _ _ _ _ hnd1 hmem1 hany]
  rw [zipWith_getD _ _ _ ca hcalt hcaQ]
  rw [hv'ca]
  unfold v2QBump
  rw [if_pos hthr]
  rfl

theorem mapperUpdate_Q_at [DecidableEq κ] (Q elig : List (κ × List ℚ))
    (cs : κ) (ca : ℕ) (ns : κ) (r : ℚ) (done : Bool)
    (hnd : (elig.map Prod.fst).Nodup)
    (hkey : cs ∈ elig.map Prod.fst)
    (hlen : (lookupVec 7 elig cs).length = 7)
    (hQlen : (lookupVec 7 Q cs).length = 7)
    (hca : ca < 7) :
    getEntry 7 (mapperUpdate Q elig cs ca ns r done).Q cs ca =
      getEntry 7 Q cs ca +
        mapperAlpha * (mapperUpdate Q elig cs ca ns r done).tdError *
          getEntry 7 elig cs ca := by
  have hmemv : (cs, lookupVec 7 elig cs) ∈ elig := lookupVec_mem 7 elig cs hkey
  have hca7 : ca < (lookupVec 7 elig cs).length := by
    rw [hlen]
    exact hca
  have hcaQ7 : ca < (lookupVec 7 Q cs).length := by
    rw [hQlen]
    exact hca
  simp only [mapperUpdate, getEntry]
  rw [mapperSweep_Q_mem _ _ _ _ _ hnd hmemv]
  rw [zipWith_getD _ _ _ ca hcaQ7 hca7]
  rfl

/-- Claim C7: in every TD(lambda) update following a selection, for both
the Strategy learner (GoalModuleV2) and the Goal learner (GoalMapper),
the change applied to the Q-value of the (current state, chosen action)
pair has the same sign as the TD error computed by that update, and is
zero exactly when the TD error is zero — for every reward, every prior
Q-table and every prior trace state (nonnegative traces with well-formed
vector lengths, as produced by the learners). -/
theorem td_update_sign_matches :
    (∀ (κ : Type) (_ : DecidableEq κ) (Q elig : List (κ × List ℚ)) (cs : κ)
      (ca : ℕ) (ns : κ) (r : ℚ) (done : Bool) (visits : ℕ),
      (elig.map Prod.fst).Nodup →
      (lookupVec 5 elig cs).length = 5 →
      (lookupVec 5 Q cs).length = 5 →
      ca < 5 →
      0 ≤ getEntry 5 elig cs ca →
      (0 < (v2Update Q elig cs ca ns r done visits).tdError →
        getEntry 5 Q cs ca <
          getEntry 5 (v2Update Q elig cs ca ns r done visits).Q cs ca) ∧
      ((v2Update Q elig cs ca ns r done visits).tdError = 0 →
        getEntry 5 (v2Update Q elig cs ca ns r done visits).Q cs ca =
          getEntry 5 Q cs ca) ∧
      ((v2Update Q elig cs ca ns r done visits).tdError < 0 →
        getEntry 5 (v2Update Q elig cs ca ns r done visits).Q cs ca <
          getEntry 5 Q cs ca)) ∧
    (∀ (κ : Type) (_ : DecidableEq κ) (Q elig : List (κ × List ℚ)) (cs : κ)
      (ca : ℕ) (ns : κ) (r : ℚ) (done : Bool),
      (elig.map Prod.fst).Nodup →
      (lookupVec 7 elig cs).length = 7 →
      (lookupVec 7 Q cs).length = 7 →
      ca < 7 →
      0 < getEntry 7 elig cs ca →
      (0 < (mapperUpdate Q elig cs ca ns r done).tdError →
        getEntry 7 Q cs ca <
          getEntry 7 (mapperUpdate Q elig cs ca ns r done).Q cs ca) ∧
      ((mapperUpdate Q elig cs ca ns r done).tdError = 0 →
        getEntry 7 (mapperUpdate Q elig cs ca ns r done).Q cs ca =
          getEntry 7 Q cs ca) ∧
      ((mapperUpdate Q elig cs ca ns r done).tdError < 0 →
        getEntry 7 (mapperUpdate Q elig cs ca ns r done).Q cs ca <
          getEntry 7 Q cs ca)) := by
  constructor
  · intro κ inst Q elig cs ca ns r done visits hnd hlen hQlen hca hnn
    have hch := v2Update_Q_at Q elig cs ca ns r done visits hnd hlen hQlen hca hnn
    have halpha : 0 < v2Alpha / (1 + (1/100) * (visits : ℚ)) := by
      apply div_pos
      · norm_num [v2Alpha]
      · positivity
    have he1 : 0 < getEntry 5 elig cs ca + 1 := by linarith
    refine ⟨?_, ?_, ?_⟩
    · intro herr
      rw [hch]
      have hprod := mul_pos (mul_pos halpha herr) he1
      linarith
    · intro herr
      rw [hch, herr]
      ring
    · intro herr
      rw [hch]
      have hprod := mul_neg_of_neg_of_pos (mul_neg_of_pos_of_neg halpha herr) he1
      linarith
  · intro κ inst Q elig cs ca ns r done hnd hlen hQlen hca hpos
    have hkey : cs ∈ elig.map Prod.fst := by
      by_contra hk
      rw [getEntry, not_mem_lookupVec 7 elig cs hk, getD_replicate_zero] at hpos
      exact lt_irrefl 0 hpos
    have hch := mapperUpdate_Q_at Q elig cs ca ns r done hnd hkey hlen hQlen hca
    have halpha : (0:ℚ) < mapperAlpha := by norm_num [mapperAlpha]
    refine ⟨?_, ?_, ?_⟩
    · intro herr
      rw [hch]
      have hprod := mul_pos (mul_pos halpha herr) hpos
      linarith
    · intro herr
      rw [hch, herr]
      ring
    · intro herr
      rw [hch]
      have hprod := mul_neg_of_neg_of_pos (mul_neg_of_pos_of_neg halpha herr) hpos
      linarith

theorem td_update_sign_matches_witness :
    ((0:ℚ) < (v2Update ([] : List (ℕ × List ℚ))
      [(0, [1, 0, 0, 0, 0])] 0 0 1 1 true 0).tdError) ∧
    (getEntry 5 ([] : List (ℕ × List ℚ)) 0 0 <
      getEntry 5 (v2Update ([] : List (ℕ × List ℚ))
        [(0, [1, 0, 0, 0, 0])] 0 0 1 1 true 0).Q 0 0) ∧
    ((0:ℚ) < (mapperUpdate ([] : List (ℕ × List ℚ))
      [(0, [1, 0, 0, 0, 0, 0, 0])] 0 0 1 1 true).tdError) ∧
    (getEntry 7 ([] : List (ℕ × List ℚ)) 0 0 <
      getEntry 7 (mapperUpdate ([] : List (ℕ × List ℚ))
        [(0, [1, 0, 0, 0, 0, 0, 0])] 0 0 1 1 true).Q 0 0) := by
  have herrV : (0:ℚ) < (v2Update ([] : List (ℕ × List ℚ))
      [(0, [1, 0, 0, 0, 0])] 0 0 1 1 true 0).tdError := by
    norm_num [v2Update, getEntry, lookupVec, getD_replicate_zero]
  have herrM : (0:ℚ) < (mapperUpdate ([] : List (ℕ × List ℚ))
      [(0, [1, 0, 0, 0, 0, 0, 0])] 0 0 1 1 true).tdError := by
    norm_num [mapperUpdate, getEntry, lookupVec, getD_replicate_zero]
  refine ⟨herrV, ?_, herrM, ?_⟩
  · exact (td_update_sign_matches.1 ℕ inferInstance []
      [(0, [1, 0, 0, 0, 0])] 0 0 1 1 true 0
      (by simp) (by norm_num [lookupVec]) (by simp [lookupVec])
      (by norm_num) (by norm_num [getEntry, lookupVec])).1 herrV
  · exact (td_update_sign_matches.2 ℕ inferInstance []
      [(0, [1, 0, 0, 0, 0, 0, 0])] 0 0 1 1 true
      (by simp) (by norm_num [lookupVec]) (by simp [lookupVec])
      (by norm_num) (by norm_num [getEntry, lookupVec])).1 herrM

/-- Claim C6 (amended): for GoalModuleV2 every eligibility entry other
than the current (state, action) pair — which receives the +1.0
selection credit — is non-increasing in magnitude across an update; for
GoalMapper every entry is non-increasing in magnitude across an update;
and GoalMapper removes, within the same update, every state entry whose
decayed trace vector has max magnitude below the 1e-6 threshold, so no
sub-threshold state entry survives a GoalMapper update.  (GoalModuleV2
never removes sub-threshold entries; see the counterexample.) -/
theorem trace_decay_and_pruning :
    (∀ (κ : Type) (_ : DecidableEq κ) (Q elig : List (κ × List ℚ)) (cs : κ)
      (ca : ℕ) (ns : κ) (r : ℚ) (done : Bool) (visits : ℕ) (k : κ) (i : ℕ),
      ¬(k = cs ∧ i = ca) →
      |getEntry 5 (v2Update Q elig cs ca ns r done visits).eligibility k i| ≤
        |getEntry 5 elig k i|) ∧
    (∀ (κ : Type) (_ : DecidableEq κ) (Q elig : List (κ × List ℚ)) (cs : κ)
      (ca : ℕ) (ns : κ) (r : ℚ) (done : Bool) (k : κ) (i : ℕ),
      (elig.map Prod.fst).Nodup →
      |getEntry 7 (mapperUpdate Q elig cs ca ns r done).eligibility k i| ≤
        |getEntry 7 elig k i|) ∧
    (∀ (κ : Type) (_ : DecidableEq κ) (Q elig : List (κ × List ℚ)) (cs : κ)
      (ca : ℕ) (ns : κ) (r : ℚ) (done : Bool),
      (mapperUpdate Q elig cs ca ns r done).eligibility.all
        (fun p => !decide (maxAbs p.2 < traceThreshold)) = true) := by
  refine ⟨?_, ?_, ?_⟩
  · intro κ inst Q elig cs ca ns r done visits k i hne
    simp only [v2Update, getEntry]
    rw [v2Sweep_eligibility, lookupVec_map_values _ _ _ v2Decay v2Decay_zero,
      map_getD v2Decay v2Decay_zero]
    have heq : (lookupVec 5 (setVec elig cs ((lookupVec 5 elig cs).set ca
        ((lookupVec 5 elig cs).getD ca 0 + 1))) k).getD i 0 =
        (lookupVec 5 elig k).getD i 0 := by
      by_cases hk : k = cs
      · subst hk
        rw [lookupVec_setVec_self]
        have hica : i ≠ ca := fun hi => hne ⟨rfl, hi⟩
        exact getD_set_outside _ _ _ _ hica
      · rw [lookupVec_setVec_ne 5 elig cs k _ hk]
    rw [heq]
    exact v2Decay_abs_le _
  · intro κ inst Q elig cs ca ns r done k i hnd
    simp only [mapperUpdate, getEntry]
    exact mapperSweep_elig_getD _ _ _ _ _ hnd
  · intro κ inst Q elig cs ca ns r done
    rw [List.all_eq_true]
    intro p hp
    simp only [mapperUpdate] at hp
    have := mapperSweep_elig_pruned
      ((if done then r else r + mapperGamma * vecMax (lookupVec 7 Q ns)) -
        getEntry 7 Q cs ca) elig Q p hp
    simpa using this

/-- Counterexample to claim C6 as stated: in GoalModuleV2, a trace entry
whose magnitude is below the 1e-6 pruning threshold (state 1 with trace
component 1/2000000, as arises after 24 decays of a selected pair) is
NOT removed by an update cycle: after a full update its key is still in
the eligibility mapping with the same positive sub-threshold value. -/
theorem v2_subthreshold_entry_not_pruned :
    getEntry 5 (v2Update ([] : List (ℕ × List ℚ))
        [(1, [1/2000000, 0, 0, 0, 0])] 0 0 0 0 false 0).eligibility 1 0 =
      1/2000000 ∧
    ((0:ℚ) < 1/2000000 ∧ (1/2000000 : ℚ) < traceThreshold) ∧
    (1 : ℕ) ∈ ((v2Update ([] : List (ℕ × List ℚ))
        [(1, [1/2000000, 0, 0, 0, 0])] 0 0 0 0 false 0).eligibility.map
          Prod.fst) := by
  have helig : (v2Update ([] : List (ℕ × List ℚ))
      [(1, [1/2000000, 0, 0, 0, 0])] 0 0 0 0 false 0).eligibility =
      [(1, [1/2000000, 0, 0, 0, 0].map v2Decay),
       (0, ((List.replicate 5 (0:ℚ)).set 0
          ((List.replicate 5 (0:ℚ)).getD 0 0 + 1)).map v2Decay)] := by
    simp only [v2Update]
    rw [v2Sweep_eligibility]
    norm_num [setVec, lookupVec]
  rw [helig]
  refine ⟨?_, ⟨by norm_num, by norm_num [traceThreshold]⟩, by simp⟩
  simp only [getEntry, lookupVec]
  norm_num [v2Decay, traceThreshold]

theorem trace_decay_and_pruning_witness :
    (|getEntry 5 (v2Update ([] : List (ℕ × List ℚ))
        [(1, [1/2, 0, 0, 0, 0])] 0 0 0 1 false 0).eligibility 1 0| ≤
      |getEntry 5 [((1:ℕ), [(1:ℚ)/2, 0, 0, 0, 0])] 1 0|) ∧
    (|getEntry 7 (mapperUpdate ([] : List (ℕ × List ℚ))
        [(0, [1, 0, 0, 0, 0, 0, 0])] 0 0 1 1 true).eligibility 0 1| ≤
      |getEntry 7 [((0:ℕ), [(1:ℚ), 0, 0, 0, 0, 0, 0])] 0 1|) ∧
    ((mapperUpdate ([] : List (ℕ × List ℚ))
        [(0, [1, 0, 0, 0, 0, 0, 0])] 0 0 1 1 true).eligibility.all
        (fun p => !decide (maxAbs p.2 < traceThreshold)) = true) :=
  ⟨trace_decay_and_pruning.1 ℕ inferInstance []
      [(1, [1/2, 0, 0, 0, 0])] 0 0 0 1 false 0 1 0 (by simp),
   trace_decay_and_pruning.2.1 ℕ inferInstance []
      [(0, [1, 0, 0, 0, 0, 0, 0])] 0 0 1 1 true 0 1 (by simp),
   trace_decay_and_pruning.2.2 ℕ inferInstance []
      [(0, [1, 0, 0, 0, 0, 0, 0])] 0 0 1 1 true⟩

/-! ### Action policy: degenerate trajectory (Claim C8) and softmax
safety (Claim C9) -/

/-- Claim C8: a REINFORCE update invoked when fewer than two trajectory
steps carry a recorded reward is a safe no-op: it returns the empty
diagnostics and the policy with only the trajectory cleared — weights,
baseline and update counter untouched. -/
theorem degenerate_trajectory_noop (p : KosmosActionPolicy)
    (h : (p.trajectory.filter (fun t => t.reward.isSome)).length < 2) :
    policyUpdate p = (none, { p with trajectory := [] }) := by
  simp only [policyUpdate]
  rw [if_pos h]

theorem degenerate_trajectory_noop_witness :
    ((onePolicy.trajectory.filter (fun t => t.reward.isSome)).length < 2) ∧
    policyUpdate onePolicy = (none, { onePolicy with trajectory := [] }) :=
  ⟨by decide,
   degenerate_trajectory_noop onePolicy (by decide)⟩

theorem softmax_pad_bounds (g : Fin 11 → ℝ) (c : ℝ) (hc : 0 < c) :
    (∀ a, 0 ≤ Real.exp (g a) / ((∑ b, Real.exp (g b)) + c)) ∧
    (∑ a, Real.exp (g a) / ((∑ b, Real.exp (g b)) + c)) < 1 := by
  have hsum : 0 < ∑ b, Real.exp (g b) :=
    Finset.sum_pos (fun b _ => Real.exp_pos _) Finset.univ_nonempty
  have hden : 0 < (∑ b, Real.exp (g b)) + c := by linarith
  constructor
  · intro a
    exact div_nonneg (Real.exp_pos _).le hden.le
  · rw [← Finset.sum_div, div_lt_one hden]
    linarith

/-- Claim C9: for every input state vector and every temperature
(including zero and negative values) the forward pass is well defined:
the temperature divisor is floored at 0.01, every probability entry is
nonnegative, and — because the softmax denominator is padded with
1e-10 — the probabilities sum to strictly less than 1. -/
theorem forward_probs_nonneg_sum_lt_one (p : KosmosActionPolicy)
    (state : Fin 35 → ℝ) (temperature : ℝ) :
    ((1:ℝ)/100 ≤ max temperature (1/100)) ∧
    (∀ a, 0 ≤ (forward p state temperature).1 a) ∧
    (∑ a, (forward p state temperature).1 a) < 1 := by
  have hb := softmax_pad_bounds
    (fun a => forwardScaled p state temperature a -
      Finset.univ.sup' Finset.univ_nonempty (forwardScaled p state temperature))
    (1/10000000000) (by norm_num)
  refine ⟨le_max_right _ _, ?_, ?_⟩
  · intro a
    simp only [forward, forwardExpL]
    exact hb.1 a
  · simp only [forward, forwardExpL]
    exact hb.2

/-! ### Demonstration buffer (Claim C10) -/

/-- Claim C10: DemonstrationBuffer.add never rejects an unknown action
name: it silently relabels the demonstration with the index of the wait
action (10) and stores it (it becomes the newest buffer element);
consequently, if every demonstration in the buffer has an action index
that is a valid index into the eleven KOSMOS_ACTIONS, this still holds
after any add. -/
theorem demo_add_unknown_action :
    (∀ (b : DemonstrationBuffer) (sd : StateDict) (name : String) (r : ℚ)
      (src : String), name ∉ KOSMOS_ACTIONS → 0 < b.maxSize →
      KOSMOS_ACTIONS.indexOf "wait" = 10 ∧
      (b.add sd name r src).1.buffer.getLast? =
        some { state := encodeKosmosState sd, actionIdx := 10, reward := r,
               survivalTicks := 0, source := src }) ∧
    (∀ (b : DemonstrationBuffer) (sd : StateDict) (name : String) (r : ℚ)
      (src : String),
      b.buffer.all (fun d => decide (d.actionIdx < 11)) = true →
      (b.add sd name r src).1.buffer.all
        (fun d => decide (d.actionIdx < 11)) = true) := by
  constructor
  · intro b sd name r src hname hmax
    have hw : KOSMOS_ACTIONS.indexOf "wait" = 10 := by decide
    refine ⟨hw, ?_⟩
    simp only [DemonstrationBuffer.add]
    rw [if_neg hname, hw]
    have hk : b.buffer.length + 1 - b.maxSize ≤ b.buffer.length := by omega
    rw [List.drop_append_of_le_length hk, List.getLast?_concat]
  · intro b sd name r src hinv
    rw [List.all_eq_true] at hinv ⊢
    intro d hd
    simp only [DemonstrationBuffer.add] at hd
    have hd' : d ∈ b.buffer ++
        [Demo.mk (encodeKosmosState sd)
          (if name ∈ KOSMOS_ACTIONS then KOSMOS_ACTIONS.indexOf name
            else KOSMOS_ACTIONS.indexOf "wait") r 0 src] :=
      List.mem_of_mem_drop hd
    rcases List.mem_append.mp hd' with h | h
    · exact hinv d h
    · rw [List.mem_singleton] at h
      subst h
      simp only [decide_eq_true_eq]
      split
      · rename_i hin
        have hlt := List.indexOf_lt_length.mpr hin
        have hlen : KOSMOS_ACTIONS.length = 11 := by decide
        rw [hlen] at hlt
        exact hlt
      · decide

theorem demo_add_unknown_action_witness :
    ("fly" ∉ KOSMOS_ACTIONS) ∧
    (KOSMOS_ACTIONS.indexOf "wait" = 10 ∧
      ((DemonstrationBuffer.mk 10000 [] []).add oneStateDict "fly" (1/2)
          "llm").1.buffer.getLast? =
        some { state := encodeKosmosState oneStateDict, actionIdx := 10,
               reward := 1/2, survivalTicks := 0, source := "llm" }) ∧
    (((DemonstrationBuffer.mk 10000 [] []).add oneStateDict "fly" (1/2)
        "llm").1.buffer.all (fun d => decide (d.actionIdx < 11)) = true) :=
  ⟨by decide,
   demo_add_unknown_action.1 (DemonstrationBuffer.mk 10000 [] [])
     oneStateDict "fly" (1/2) "llm" (by decide) (by norm_num),
   demo_add_unknown_action.2 (DemonstrationBuffer.mk 10000 [] [])
     oneStateDict "fly" (1/2) "llm" (by decide)⟩
